import Mathlib

/-!
# Verification of the Q-Core layered CRUD framework

A shallow embedding, in Lean 4, of the parts of the Q-Core TypeScript
repository that the specification's claims are about:

* the JS data model used by the framework: objects as association lists of
  string keys and primitive values, and the JS `Map` used as the in-memory
  store of the test DAO (`src/__tests__/base/testDAOImpl.ts`);
* `BaseDAO` (`src/base/baseDAO.ts`): `findAll` / `findOne` / `findById`
  soft-delete filter enhancement, `delete`, `softDelete`, `hardDelete`,
  `restore`, `withTransaction`;
* `BaseService` (`src/base/baseService.ts`): `findById` and the 404
  `ApiError`;
* `BaseController.getAll` (`src/base/baseController.ts`): list query
  parameter parsing;
* `BaseDTO` (`src/base/baseDTO.ts`): `toCreateDTO` / `toUpdateDTO` and the
  derived create/update schemas over a structural-schema model of Zod
  object schemas;
* the error pipeline (`src/lib/errorHandler.ts` table and
  `src/error/errorResolver.ts` first-match dispatch).

Functions are translated from the source; JS statefulness (the DAO's
backing `Map`, the transaction scratch copy) becomes explicit state
passing, thrown exceptions become `Except`, and JS `undefined` becomes
`Option`.
-/

deriving instance DecidableEq for Except

/-- A primitive JS value as used by the framework's entities and filters:
strings, booleans, integers and `Date` objects (dates are identified by a
timestamp).  JS `===` on these primitives is structural equality. -/
inductive Value where
  | vStr (s : String)
  | vBool (b : Bool)
  | vNum (n : Int)
  | vDate (t : Nat)
deriving DecidableEq, Repr

/-- JS truthiness of a primitive value: `false`, `""` and `0` are falsy;
every `Date` object is truthy. -/
def Value.truthy : Value → Bool
  | .vStr s => !s.isEmpty
  | .vBool b => b
  | .vNum n => n != 0
  | .vDate _ => true

/-- JS truthiness of a possibly-`undefined` value (`undefined` is falsy). -/
def jsTruthy : Option Value → Bool
  | none => false
  | some v => v.truthy

/-- A JS object: an association list of string keys and primitive values.
Objects built by the embedded program have pairwise-distinct keys, in
insertion order, exactly as JS objects do. -/
abbrev Obj := List (String × Value)

/-- `o[k]`: JS property read; `none` models `undefined`. -/
def Obj.get : Obj → String → Option Value
  | [], _ => none
  | (k, v) :: rest, key => if k = key then some v else Obj.get rest key

/-- `o[k] = v` / spread-override: replaces the value of an existing key in
place (JS objects keep the original key position) and appends a fresh key
at the end, exactly like JS property assignment and object spread. -/
def Obj.set : Obj → String → Value → Obj
  | [], key, val => [(key, val)]
  | (k, v) :: rest, key, val =>
    if k = key then (k, val) :: rest else (k, v) :: Obj.set rest key val

/-- `{...a, ...b}`: JS object spread, later keys override earlier ones. -/
def Obj.union (a b : Obj) : Obj :=
  b.foldl (fun acc kv => acc.set kv.1 kv.2) a

/-- `Object.entries(filter).every(([key, value]) => entity[key] === value)`:
the record-matching predicate of `TestConcreteDAO._findUnique` /
`_findAll` (testDAOImpl.ts lines 78-106). -/
def Obj.matches (filter entity : Obj) : Bool :=
  filter.all fun kv => entity.get kv.1 = some kv.2

/-- The in-memory store of `TestConcreteDAO`: a JS `Map` from the entity's
`id` property (a primitive value, or `undefined` for an entity without an
`id`) to the entity object, in insertion order. -/
abbrev Store := List (Option Value × Obj)

/-- `map.get(key)`. -/
def Store.get : Store → Option Value → Option Obj
  | [], _ => none
  | (k, e) :: rest, key => if k = key then some e else Store.get rest key

/-- `map.set(key, value)`: overwrites in place, appends if fresh. -/
def Store.set : Store → Option Value → Obj → Store
  | [], key, entity => [(key, entity)]
  | (k, e) :: rest, key, entity =>
    if k = key then (k, entity) :: rest else (k, e) :: Store.set rest key entity

/-- `map.delete(key)`. -/
def Store.erase : Store → Option Value → Store
  | [], _ => []
  | (k, e) :: rest, key =>
    if k = key then rest else (k, e) :: Store.erase rest key

/-- `Array.from(map.values())`. -/
def Store.values (st : Store) : List Obj :=
  st.map Prod.snd

/-- The `Map` key under which `TestConcreteDAO` stores and retrieves a
record with string primary key `id`. -/
def storeKey (id : String) : Option Value :=
  some (Value.vStr id)

/-! ## TestConcreteDAO: the repository's concrete in-memory DAO backend
(src/__tests__/base/testDAOImpl.ts).  Each method takes the backing store
explicitly and returns the updated store where the source mutates it. -/

namespace TestDAO

/-- `_create`: `this.store.set(data.id, data); return data`. -/
def create (st : Store) (data : Obj) : Store × Obj :=
  (st.set (data.get "id") data, data)

/-- `_findUnique`: first stored entity matching every filter entry. -/
def findUnique (st : Store) (filter : Obj) : Option Obj :=
  st.values.find? fun entity => filter.matches entity

/-- `_findAll`: all stored entities matching the filter; the bare value
list when the filter argument is absent (`if (filter)` — note that an
empty JS object is truthy, so even `{}` goes through the filter branch). -/
def findAllRecords (st : Store) (filter : Option Obj) : List Obj :=
  match filter with
  | some f => st.values.filter fun entity => f.matches entity
  | none => st.values

/-- `_updateOne`: merge a partial patch over the stored record, `null`
when the id is absent. -/
def updateOne (st : Store) (id : String) (data : Obj) : Store × Option Obj :=
  match st.get (storeKey id) with
  | none => (st, none)
  | some existing =>
    let updated := existing.union data
    (st.set (storeKey id) updated, some updated)

/-- `_hardDeleteOne`: `store.delete(id)`, returning the previous record. -/
def hardDeleteOne (st : Store) (id : String) : Store × Option Obj :=
  (st.erase (storeKey id), st.get (storeKey id))

/-- `_softDeleteOne`: `this._updateOne(id, { isDeleted: true })`. -/
def softDeleteOne (st : Store) (id : String) : Store × Option Obj :=
  updateOne st id [("isDeleted", Value.vBool true)]

/-- `_restore`: `this._updateOne(id, { isDeleted: false })`. -/
def restoreOne (st : Store) (id : String) : Store × Option Obj :=
  updateOne st id [("isDeleted", Value.vBool false)]

/-- `_withTransaction`: the operation runs against a scratch copy of the
backing map (`transactionMemory = new Map(this.memory)`); on success the
scratch copy is committed (`this.memory = this.transactionMemory`), on a
thrown error the committed memory is left untouched and the error is
rethrown.  The operation receives the scratch store and returns the store
it produced together with its result, or a thrown error. -/
def withTransaction {ε α : Type} (memory : Store)
    (operation : Store → Except ε (Store × α)) : Store × Except ε α :=
  match operation memory with
  | .ok (txMemory, result) => (txMemory, .ok result)
  | .error e => (memory, .error e)

end TestDAO

/-! ## BaseDAO (src/base/baseDAO.ts), composed with the concrete
in-memory backend above. -/

/-- The DTO configuration's auto-field declarations (`baseDTO.ts`
`DTOConfig`): the identifier field name and the optional created-at /
updated-at / soft-delete field names. -/
structure DTOConfig where
  idField : String
  createdAtField : Option String := none
  updatedAtField : Option String := none
  isDeletedField : Option String := none
deriving DecidableEq, Repr

/-- `get supportsSoftDelete(): boolean { return !!this.dto.config.autoFields.isDeletedField }`
— double-negation truthiness: an absent field name and the empty string
are both falsy. -/
def supportsSoftDelete (cfg : DTOConfig) : Bool :=
  match cfg.isDeletedField with
  | none => false
  | some s => !s.isEmpty

namespace BaseDAO

/-- The filter-enhancement step shared by `findAll` / `findOne` (baseDAO.ts
lines 205-218 and 236-249): when the entity supports soft deletion and
deleted records are not requested, the filter is extended with
`[isDeletedField]: false`; otherwise it is passed unchanged. -/
def enhancedFilter (cfg : DTOConfig) (filter : Obj) (includeDeleted : Bool) : Obj :=
  if supportsSoftDelete cfg then
    if includeDeleted then filter
    else filter.set (cfg.isDeletedField.getD "") (Value.vBool false)
  else filter

/-- `findAll(filter = {}, options = {}, includeDeleted = false)`. -/
def findAll (cfg : DTOConfig) (st : Store) (filter : Obj)
    (includeDeleted : Bool) : List Obj :=
  TestDAO.findAllRecords st (some (enhancedFilter cfg filter includeDeleted))

/-- `findOne(filter, options = {}, includeDeleted = false)`. -/
def findOne (cfg : DTOConfig) (st : Store) (filter : Obj)
    (includeDeleted : Bool) : Option Obj :=
  TestDAO.findUnique st (enhancedFilter cfg filter includeDeleted)

/-- `findById(id, options = {}, includeDeleted = false)`: builds the filter
`{ id }`, or `{ id, [isDeletedField]: false }` when soft deletion is
supported and deleted records are not requested. -/
def findById (cfg : DTOConfig) (st : Store) (id : String)
    (includeDeleted : Bool) : Option Obj :=
  TestDAO.findUnique st (enhancedFilter cfg [("id", Value.vStr id)] includeDeleted)

/-- `insert(entity)`. -/
def insert (cfg : DTOConfig) (st : Store) (entity : Obj) : Store × Obj :=
  let _ := cfg
  TestDAO.create st entity

/-- `delete(id, config = { returnRecord: true })` (baseDAO.ts lines
319-331): unconditionally calls `_hardDeleteOne`. -/
def delete (cfg : DTOConfig) (st : Store) (id : String)
    (returnRecord : Bool := true) : Store × Option Obj :=
  let _ := cfg
  let (st2, result) := TestDAO.hardDeleteOne st id
  (st2, if returnRecord then result else none)

/-- `hardDelete(id, config?)` (the explicit hard-delete path). -/
def hardDelete (cfg : DTOConfig) (st : Store) (id : String)
    (returnRecord : Bool) : Store × Option Obj :=
  let _ := cfg
  let (st2, result) := TestDAO.hardDeleteOne st id
  (st2, if returnRecord then result else none)

/-- `softDelete(id, config?)` (baseDAO.ts lines 372-380): throws when the
entity has no soft-delete field, else delegates to `_softDeleteOne`. -/
def softDelete (cfg : DTOConfig) (st : Store) (id : String)
    (returnRecord : Bool) : Except String (Store × Option Obj) :=
  if !supportsSoftDelete cfg then
    .error "This entity doesn't support soft deletion"
  else
    let (st2, result) := TestDAO.softDeleteOne st id
    .ok (st2, if returnRecord then result else none)

/-- `restore(id)` (baseDAO.ts lines 338-346): throws when the entity has
no soft-delete field, else delegates to `_restore`. -/
def restore (cfg : DTOConfig) (st : Store) (id : String) :
    Except String (Store × Option Obj) :=
  if !supportsSoftDelete cfg then
    .error "Restore operation is available only for entities that support soft deletion"
  else
    .ok (TestDAO.restoreOne st id)

end BaseDAO

/-! Concrete instances used by witnesses and counterexamples: the two DTO
configurations of the repository's DAO test suite
(src/__tests__/base/testDAOImpl.ts). -/

/-- `TestDTOWithSoftDeletion`'s auto fields. -/
def softCfg : DTOConfig :=
  { idField := "id", isDeletedField := some "isDeleted" }

/-- `TestDTOWithoutSoftDeletion`'s auto fields. -/
def plainCfg : DTOConfig :=
  { idField := "id" }

/-- `testEntity1` of baseDAO.test.ts, in the soft-delete configuration. -/
def testEntity1 : Obj :=
  [("id", Value.vStr "test-id"), ("email", Value.vStr "test@email.com"),
   ("isDeleted", Value.vBool false)]

/-- A store holding exactly `testEntity1` (the state after `dao.insert(testEntity1)`). -/
def store1 : Store :=
  (TestDAO.create [] testEntity1).1

/-- The spec's rollback scenario as a transaction body: insert a record,
then raise.  The insert's write lands in the transaction-scoped store,
which the throw abandons. -/
def insertThenRaise (st : Store) : Except String (Store × Obj) :=
  let (st2, _) := TestDAO.create st testEntity1
  let _ := st2
  .error "transaction failed"

/-! ## BaseService (src/base/baseService.ts) and the error code table
(src/lib/errorCode.ts). -/

/-! The fixed error-code enumeration of `src/lib/errorCode.ts`. -/

namespace errorCode

def duplicateEntry : String := "DUPLICATE_ENTRY"

def foreignConstraint : String := "FOREIGN_KEY_CONSTRAINT"

def notFound : String := "RESOURCE_NOT_FOUND"

def database : String := "DATABASE_ERROR"

def validation : String := "VALIDATION_ERROR"

def internalError : String := "INTERNAL_SERVER_ERROR"

def http : String := "HTTP_ERROR"

def unknown : String := "UNKNOWN"

def badRequest : String := "BAD_REQUEST"

def unauthorized : String := "UNAUTHORIZED"

def forbidden : String := "FORBIDDEN"

def conflict : String := "CONFLICT"

end errorCode

/-- An `ApiError` (src/utils/apiError.ts): status code, message, path and
error code (the stack and `isOperational` flag are not modelled; the
claims do not mention them). -/
structure ApiError where
  statusCode : Nat
  message : String
  path : String
  errorCode : String
deriving DecidableEq, Repr

/-- `BaseDTO.toJSON` is the identity transform by default. -/
def BaseDTO.toJSON (dto : Obj) : Obj := dto

namespace BaseService

/-- The 404 error thrown by `BaseService.findById` (baseService.ts lines
143-150). -/
def notFoundError (id : String) : ApiError :=
  { statusCode := 404
    message := "Entity not found for ID: " ++ id
    path := "id"
    errorCode := errorCode.notFound }

/-- `BaseService.findById` (baseService.ts lines 141-152): fetch through
the DAO (`includeDeleted` defaults to `false`), throw the 404 `ApiError`
when the result is absent or its `isDeleted` property is truthy
(`!entity || entity.isDeleted`), else return the entity through the DTO
output formatter. -/
def findById (cfg : DTOConfig) (st : Store) (id : String) : Except ApiError Obj :=
  match BaseDAO.findById cfg st id false with
  | none => .error (notFoundError id)
  | some entity =>
    if jsTruthy (entity.get "isDeleted") then .error (notFoundError id)
    else .ok (BaseDTO.toJSON entity)

end BaseService

/-! ## BaseController.getAll query parsing (src/base/baseController.ts
lines 69-92). -/

/-- The raw list query parameters of a `GET /` request: each of
`req.query["filter"]`, `req.query["limit"]`, `req.query["skip"]`,
`req.query["sort"]` is a string or absent. -/
structure ListQuery where
  filter : Option String := none
  limit : Option String := none
  skip : Option String := none
  sort : Option String := none
deriving DecidableEq, Repr

/-- JS truthiness of an optional query-parameter string (`undefined` and
`""` are falsy). -/
def strTruthy : Option String → Bool
  | none => false
  | some s => !s.isEmpty

/-- `String(x)` on a possibly-undefined query parameter: `String(undefined)`
is the string `"undefined"`. -/
def jsString : Option String → String
  | none => "undefined"
  | some s => s

/-- `if (v) options[key] = v`: assign the parsed value into the options
object when it is defined and truthy.  The options object starts empty and
each key is assigned at most once, so appending is JS property assignment. -/
def optAssign {β : Type} (truthy : β → Bool) (options : List (String × β))
    (key : String) : Option β → List (String × β)
  | some v => if truthy v then options ++ [(key, v)] else options
  | none => options

namespace BaseController

/-- `BaseController.getAll`'s query parsing (baseController.ts lines
71-81): produces the filter and the options object forwarded to
`service.findAll(filter, options)`.  Generic over the JSON value universe
`β` and the platform's `JSON.parse` (which throws a `SyntaxError` on
malformed input, modelled by `Except`).  The line

  `const skip = req.query["skip"] ? JSON.parse(String(req.query["limit"])) : undefined;`

is translated exactly as written: the presence test looks at `skip` but
the decoded text is the `limit` parameter. -/
def getAllQuery {β : Type} (jsonParse : String → Except String β)
    (emptyObj : β) (truthy : β → Bool) (q : ListQuery) :
    Except String (β × List (String × β)) := do
  let filter ← if strTruthy q.filter then jsonParse (jsString q.filter)
    else pure emptyObj
  let limit ← if strTruthy q.limit then (jsonParse (jsString q.limit)).map some
    else pure none
  let skip ← if strTruthy q.skip then (jsonParse (jsString q.limit)).map some
    else pure none
  let sort ← if strTruthy q.sort then (jsonParse (jsString q.sort)).map some
    else pure none
  let options := optAssign truthy
    (optAssign truthy (optAssign truthy [] "limit" limit) "skip" skip) "sort" sort
  pure (filter, options)

end BaseController

/-- A fragment of the JSON value universe sufficient for list queries: the
empty object (the default filter) and natural-number literals. -/
inductive JsonLite where
  | emptyObj
  | num (n : Nat)
deriving DecidableEq, Repr

/-- JS truthiness on the fragment: every object is truthy, `0` is falsy. -/
def JsonLite.truthy : JsonLite → Bool
  | .emptyObj => true
  | .num n => n != 0

/-- Reads a non-empty run of decimal digits as a natural number. -/
def parseDigitsAux : List Char → Nat → Option Nat
  | [], acc => some acc
  | c :: rest, acc =>
    if c.isDigit then parseDigitsAux rest (acc * 10 + (c.toNat - 48)) else none

/-- `JSON.parse` restricted to the fragment: `"{}"` and decimal numerals
parse, everything else (in particular the text `"undefined"`) throws a
`SyntaxError`. -/
def parseJsonLite (s : String) : Except String JsonLite :=
  if s = "{}" then .ok .emptyObj
  else
    match s.data with
    | [] => .error "Unexpected token in JSON"
    | cs =>
      match parseDigitsAux cs 0 with
      | some n => .ok (.num n)
      | none => .error "Unexpected token in JSON"

/-! ## BaseDTO (src/base/baseDTO.ts) over a structural model of Zod
object schemas. -/

/-- The Zod field validators used by the framework's schemas. -/
inductive FieldType where
  | string
  | email
  | boolean
  | number
  | date
deriving DecidableEq, Repr

/-- One field of a Zod object schema: its key, validator and optionality
(`.partial()` marks every field optional). -/
structure FieldSpec where
  name : String
  type : FieldType
  optional : Bool := false
deriving DecidableEq, Repr

/-- A Zod object schema: its shape, in declaration order. -/
abbrev Schema := List FieldSpec

/-- Whether a validator accepts a primitive value.  The `email` validator
is abstracted to "a string containing an `@`"; the claims only rely on it
accepting the test addresses. -/
def FieldType.accepts : FieldType → Value → Bool
  | .string, .vStr _ => true
  | .email, .vStr s => s.data.contains '@'
  | .boolean, .vBool _ => true
  | .number, .vNum _ => true
  | .date, .vDate _ => true
  | _, _ => false

/-- The per-field pass of `schema.safeParse(data)` on a Zod object schema:
collects the issue paths of missing required or type-rejected fields, and
the validated output object.  Keys not in the shape are stripped. -/
def zodParseFields : Schema → Obj → (List String × Obj)
  | [], _ => ([], [])
  | f :: rest, input =>
    let r := zodParseFields rest input
    match input.get f.name with
    | none => if f.optional then r else (f.name :: r.1, r.2)
    | some v =>
      if f.type.accepts v then (r.1, (f.name, v) :: r.2)
      else (f.name :: r.1, r.2)

/-- `BaseDTO.parse`: `safeParse` then throw a `ZodError` carrying the
issues when validation fails (baseDTO.ts lines 128-134). -/
def zodParse (shape : Schema) (input : Obj) : Except (List String) Obj :=
  match zodParseFields shape input with
  | ([], out) => .ok out
  | (issues, _) => .error issues

/-- `schema.omit(names)`. -/
def Schema.omit (shape : Schema) (names : List String) : Schema :=
  shape.filter fun f => !names.contains f.name

/-- `schema.partial()`: every field becomes optional. -/
def Schema.allOptional (shape : Schema) : Schema :=
  shape.map fun f => { f with optional := true }

/-- `if (field) omitObject[field] = true`: a configured field name joins
the omit set only when truthy (present and non-empty). -/
def truthyName : Option String → List String
  | none => []
  | some s => if s.isEmpty then [] else [s]

/-- The full DTO configuration of baseDTO.ts: the base schema and the
auto-managed field names. -/
structure DTOSchemaConfig where
  baseSchema : Schema
  commonFields : DTOConfig
deriving DecidableEq, Repr

namespace BaseDTO

/-- `get createSchema` (baseDTO.ts lines 137-154): the base schema with
every truthy auto-field name omitted. -/
def createSchema (cfg : DTOSchemaConfig) : Schema :=
  cfg.baseSchema.omit
    (truthyName (some cfg.commonFields.idField)
      ++ truthyName cfg.commonFields.createdAtField
      ++ truthyName cfg.commonFields.updatedAtField
      ++ truthyName cfg.commonFields.isDeletedField)

/-- `get updateSchema` (baseDTO.ts lines 157-172): the base schema made
fully optional with the identifier and created-at names omitted. -/
def updateSchema (cfg : DTOSchemaConfig) : Schema :=
  cfg.baseSchema.allOptional.omit
    (truthyName (some cfg.commonFields.idField)
      ++ truthyName cfg.commonFields.createdAtField)

/-- `toCreateDTO(entity)` (baseDTO.ts lines 24-26). -/
def toCreateDTO (cfg : DTOSchemaConfig) (entity : Obj) : Except (List String) Obj :=
  zodParse (createSchema cfg) entity

/-- A failure of `toUpdateDTO`: the bad-request `ApiError` on an empty
input, or a thrown `ZodError` carrying the validation issues. -/
inductive DtoError where
  | api (e : ApiError)
  | zod (issues : List String)
deriving DecidableEq, Repr

/-- The input actually validated by `toUpdateDTO` (baseDTO.ts lines
102-109): the caller's object with `new Date()` injected under the
configured (truthy) updated-at field name. -/
def updateInput (now : Value) (cfg : DTOSchemaConfig) (input : Obj) : Obj :=
  match cfg.commonFields.updatedAtField with
  | some f => if f.isEmpty then input else input.set f now
  | none => input

/-- `toUpdateDTO(entity)` (baseDTO.ts lines 92-112): reject the empty
object with a 400 `ApiError` before touching the schema, inject the
update timestamp, then validate against the update schema.  `now` stands
for the `new Date()` the source constructs. -/
def toUpdateDTO (now : Value) (cfg : DTOSchemaConfig) (input : Obj) :
    Except DtoError Obj :=
  if input.length = 0 then
    .error (.api { statusCode := 400, message := "Must update at least one field",
                   path := "body", errorCode := errorCode.badRequest })
  else
    (zodParse (updateSchema cfg) (updateInput now cfg input)).mapError .zod

end BaseDTO

/-- The schema of the documentation's user DTO (baseDTO.ts doc example,
also the README walk-through): id, email, password (min 8), createdAt,
updatedAt and the soft-delete flag. -/
def userSchema : Schema :=
  [{ name := "id", type := .string }, { name := "email", type := .email },
   { name := "password", type := .string }, { name := "createdAt", type := .date },
   { name := "updatedAt", type := .date }, { name := "isDeleted", type := .boolean }]

/-- The user DTO configuration with all four auto fields declared. -/
def userDTOCfg : DTOSchemaConfig :=
  { baseSchema := userSchema
    commonFields :=
      { idField := "id", createdAtField := some "createdAt",
        updatedAtField := some "updatedAt", isDeletedField := some "isDeleted" } }

/-- The README / spec §8 create request body. -/
def createBody : Obj :=
  [("email", Value.vStr "test@email.com"), ("password", Value.vStr "password123")]

/-! ## The error pipeline: the ordered handler table
(src/lib/errorHandler.ts) and the first-match resolver
(src/error/errorResolver.ts), with the formatters of
src/error/errorFormater.ts. -/

/-- One issue of a thrown `ZodError`: its path segments and message. -/
structure ZodIssue where
  path : List String
  message : String
deriving DecidableEq, Repr

/-- A thrown JS value, classified by its prototype chain — the only
property the handler table's `instanceof` predicates inspect — together
with the properties the matching handlers read.  `genericError` is a
plain `Error` subclass (its `name`, `message` and optional `path`), and
`nonError` a thrown value that is not an `instanceof Error` (carrying no
`code`, `name` or `message` property). -/
inductive JSError where
  | prismaKnown (code : String) (target modelName fieldName cause : Option String)
  | prismaInit
  | zodError (issues : List ZodIssue)
  | syntaxError (path message : Option String)
  | apiError (statusCode : Nat) (message : String) (path : Option String)
      (errCode : Option String)
  | genericError (name message : String) (path : Option String)
  | nonError
deriving DecidableEq, Repr

/-- `err.meta?.target`. -/
def JSError.metaTarget : JSError → Option String
  | .prismaKnown _ t _ _ _ => t
  | _ => none

/-- `err.path` (defined on the error shapes that may carry one;
`undefined` elsewhere). -/
def JSError.pathProp : JSError → Option String
  | .syntaxError p _ => p
  | .apiError _ _ p _ => p
  | .genericError _ _ p => p
  | _ => none

/-- `err.message` as an optional property (only read, through `||`
defaults, by the handlers whose predicates admit these shapes). -/
def JSError.msgProp : JSError → Option String
  | .syntaxError _ m => m
  | .apiError _ m _ _ => some m
  | .genericError _ m _ => some m
  | _ => none

/-- `err instanceof Error`: every modelled thrown shape except a
non-`Error` value. -/
def JSError.isError : JSError → Bool
  | .nonError => false
  | _ => true

/-- `s || d` on a JS string (empty strings are falsy). -/
def jsOrStr (s d : String) : String :=
  if s.isEmpty then d else s

/-- `v || d` on a possibly-undefined JS string. -/
def jsOrOpt : Option String → String → String
  | none, d => d
  | some s, d => jsOrStr s d

/-- The `path` of an error detail: a string, the `[modelName, field]` pair
of a foreign-key violation, or `undefined`. -/
inductive ErrPath where
  | str (s : String)
  | pair (modelName fieldName : Option String)
  | undef
deriving DecidableEq, Repr

/-- One entry of the `errors` array of the error envelope (§3 of the
spec): path, message and error code. -/
structure ErrorDetail where
  path : ErrPath
  message : Option String
  code : String
deriving DecidableEq, Repr

/-- The uniform response envelope produced by
`ResponseSender.formatResponse`: `success` derived from the status-code
range, plus message and error details.  The `data` payload and the
dev-only `stack` are not modelled; no claim mentions them. -/
structure ApiResponse where
  success : Bool
  statusCode : Nat
  message : String
  errors : Option (List ErrorDetail) := none
deriving DecidableEq, Repr

/-- `ResponseSender.formatResponse` (sendResponse.ts lines 170-194):
`success = statusCode >= 200 && statusCode < 300`. -/
def ResponseSender.formatResponse (statusCode : Nat) (message : String)
    (errors : Option (List ErrorDetail)) : ApiResponse :=
  { success := decide (200 ≤ statusCode) && decide (statusCode < 300)
    statusCode := statusCode
    message := message
    errors := errors }

/-- A runtime fault raised inside a handler body itself: reading a
property of `undefined` throws a `TypeError` (the dead second `ZodError`
entry reads `err.validatedError.issues`, and `validatedError` is not a
property of a `ZodError`). -/
inductive JsFault where
  | typeErrorUndefined
deriving DecidableEq, Repr

namespace ErrorFormatter

/-- The backtick character, the delimiter of the Prisma validation
message's field capture. -/
def backtick : Char := Char.ofNat 96

/-- Characters up to the next backtick; `none` when no backtick closes
the capture. -/
def takeTick : List Char → Option (List Char)
  | [] => none
  | c :: rest =>
    if c = backtick then some []
    else (takeTick rest).map fun l => c :: l

/-- One attempt, at the current position, of the regex
`Invalid value for (?:argument|field) <tick>([^<tick>]+)<tick>`. -/
def tryMatchAt (cs : List Char) : Option String :=
  let pat1 := "Invalid value for argument ".data ++ [backtick]
  let pat2 := "Invalid value for field ".data ++ [backtick]
  if pat1.isPrefixOf cs then
    match takeTick (cs.drop pat1.length) with
    | some cap => if cap.isEmpty then none else some (String.mk cap)
    | none => none
  else if pat2.isPrefixOf cs then
    match takeTick (cs.drop pat2.length) with
    | some cap => if cap.isEmpty then none else some (String.mk cap)
    | none => none
  else none

/-- `message.match(...)`: the regex's first match, scanning left to
right. -/
def matchInvalidValue : List Char → Option String
  | [] => none
  | c :: rest =>
    match tryMatchAt (c :: rest) with
    | some f => some f
    | none => matchInvalidValue rest

/-- `ErrorFormatter.duplicateEntry`: the violated field name is the
second-to-last `_`-separated segment of the unique-constraint target. -/
def duplicateEntry (target : Option String) : List ErrorDetail :=
  let part := match target with
    | some t => t.splitOn "_"
    | none => []
  let field := if part.length > 1 then part.getD (part.length - 2) "unknown"
    else "unknown"
  [{ path := .str field, message := some "Provide unique entry",
     code := "DUPLICATE_ENTRY" }]

/-- `ErrorFormatter.foreignKeyConstraint`. -/
def foreignKeyConstraint (modelName fieldName : Option String) : List ErrorDetail :=
  [{ path := .pair modelName fieldName,
     message := some "Foreign key constraint failed",
     code := errorCode.foreignConstraint }]

/-- `ErrorFormatter.notFound`. -/
def notFoundDetail (modelName cause : Option String) : List ErrorDetail :=
  [{ path := match modelName with
      | some m => .str m
      | none => .undef
     message := cause
     code := errorCode.notFound }]

/-- `ErrorFormatter.databaseError`. -/
def databaseError : List ErrorDetail :=
  [{ path := .str "database", message := some "A database error occurred",
     code := errorCode.database }]

/-- `ErrorFormatter.zodError`: one detail per issue, the path segments
joined by `.` (`"unknown"` when the join is empty). -/
def zodErrorDetails (issues : List ZodIssue) : List ErrorDetail :=
  issues.map fun issue =>
    { path := .str (jsOrStr (String.intercalate "." issue.path) "unknown")
      message := some issue.message
      code := errorCode.validation }

/-- `ErrorFormatter.invalidJSON`. -/
def invalidJSON (path message : Option String) : List ErrorDetail :=
  [{ path := .str (jsOrOpt path "body")
     message := some (jsOrOpt message "Invalid JSON body provided")
     code := errorCode.badRequest }]

/-- `ErrorFormatter.apiError`. -/
def apiErrorDetails (path : Option String) (message : String)
    (errCode : Option String) : List ErrorDetail :=
  [{ path := .str (jsOrOpt path "unknown")
     message := some message
     code := jsOrOpt errCode errorCode.unknown }]

/-- `ErrorFormatter.prismaValidationError`: field from the first
`Invalid value for argument/field` capture; reason from the trimmed last
message line, cut after `Got invalid value` when present. -/
def prismaValidationError (message : String) : List ErrorDetail :=
  let field := (matchInvalidValue message.data).getD "unknown"
  let reason0 := jsOrStr ((message.splitOn "\n").getLastD "").trim
    "Invalid input provided"
  let reason :=
    if (reason0.splitOn "Got invalid value").length > 1 then
      ((reason0.splitOn "Got invalid value").getD 1 "").trim
    else reason0
  [{ path := .str field, message := some reason, code := errorCode.validation }]

/-- `ErrorFormatter.formatGenericError`. -/
def formatGenericError (name message : String) (path : Option String) :
    List ErrorDetail :=
  if name = "PrismaClientValidationError" then prismaValidationError message
  else
    [{ path := .str (jsOrOpt path "unknown")
       message := some (jsOrStr message "An unexpected error occurred")
       code := errorCode.unknown }]

/-- `ErrorFormatter.formatOtherError`.  Only values that are not
`instanceof Error` reach the resolver's fallback (the table's last entry
catches every `Error`); such a value carries no `code`, `name` or
`message` property in this model, so the Prisma-code switch and the
validation-error branch of the source are skipped and the unknown-error
detail is produced. -/
def formatOtherError (err : JSError) : List ErrorDetail :=
  let _ := err
  [{ path := .str "unknown", message := some "An unknown error occurred",
     code := errorCode.unknown }]

end ErrorFormatter

/-- `err.name`: the class-derived `name` of the thrown value (an
`ApiError` does not override `name`, so it reports plain `Error`; a
non-`Error` value has none, modelled by the empty string — it never
reaches a handler reading `name`). -/
def JSError.nameProp : JSError → String
  | .prismaKnown _ _ _ _ _ => "PrismaClientKnownRequestError"
  | .prismaInit => "PrismaClientInitializationError"
  | .zodError _ => "ZodError"
  | .syntaxError _ _ => "SyntaxError"
  | .apiError _ _ _ _ => "Error"
  | .genericError n _ _ => n
  | .nonError => ""

/-- `err.message` as the string every `Error` carries (defaults to `""`;
only read by the last, catch-all `Error` entry). -/
def JSError.msgString : JSError → String
  | .syntaxError _ m => m.getD ""
  | .apiError _ m _ _ => m
  | .genericError _ m _ => m
  | _ => ""

/-- One entry of the ordered handler table: the `instanceof`-based
predicate and the envelope-producing handler (which can itself fault at
runtime). -/
structure ErrorHandler where
  check : JSError → Bool
  handler : JSError → Except JsFault ApiResponse

/-- The ordered handler table of src/lib/errorHandler.ts, entries 0-9 in
source order (the commented-out `err.errors` entry of the source is
likewise absent here).  Handler bodies that dereference a property of a
shape their own predicate excludes fault with a `TypeError`, exactly as
the JS would. -/
def errorHandlers : List ErrorHandler :=
  [ -- 0: PrismaClientKnownRequestError with code P2002 (duplicate entry)
    { check := fun err => match err with
        | .prismaKnown code _ _ _ _ => code == "P2002"
        | _ => false
      handler := fun err =>
        .ok (ResponseSender.formatResponse 409 "Conflict"
          (some (ErrorFormatter.duplicateEntry err.metaTarget))) },
    -- 1: PrismaClientKnownRequestError with code P2003 (foreign key)
    { check := fun err => match err with
        | .prismaKnown code _ _ _ _ => code == "P2003"
        | _ => false
      handler := fun err => match err with
        | .prismaKnown _ _ m f _ =>
          .ok (ResponseSender.formatResponse 409 "Conflict"
            (some (ErrorFormatter.foreignKeyConstraint m f)))
        | _ => .error .typeErrorUndefined },
    -- 2: PrismaClientKnownRequestError with code P2025 (record not found)
    { check := fun err => match err with
        | .prismaKnown code _ _ _ _ => code == "P2025"
        | _ => false
      handler := fun err => match err with
        | .prismaKnown _ _ m _ c =>
          .ok (ResponseSender.formatResponse 404 "Not Found"
            (some (ErrorFormatter.notFoundDetail m c)))
        | _ => .error .typeErrorUndefined },
    -- 3: PrismaClientInitializationError (database unavailable)
    { check := fun err => match err with
        | .prismaInit => true
        | _ => false
      handler := fun _ =>
        .ok (ResponseSender.formatResponse 503 "Service Unavailable"
          (some [{ path := .str "database",
                   message := some "Database not initialized",
                   code := errorCode.database }])) },
    -- 4: any other PrismaClientKnownRequestError (generic database error)
    { check := fun err => match err with
        | .prismaKnown _ _ _ _ _ => true
        | _ => false
      handler := fun _ =>
        .ok (ResponseSender.formatResponse 404 "Not Found"
          (some ErrorFormatter.databaseError)) },
    -- 5: ZodError (schema validation)
    { check := fun err => match err with
        | .zodError _ => true
        | _ => false
      handler := fun err => match err with
        | .zodError issues =>
          .ok (ResponseSender.formatResponse 400 "Validation Error"
            (some (ErrorFormatter.zodErrorDetails issues)))
        | _ => .error .typeErrorUndefined },
    -- 6: SyntaxError (malformed JSON body)
    { check := fun err => match err with
        | .syntaxError _ _ => true
        | _ => false
      handler := fun err =>
        .ok (ResponseSender.formatResponse 400 "Invalid JSON"
          (some (ErrorFormatter.invalidJSON err.pathProp err.msgProp))) },
    -- 7: ZodError again — the handler reads `err.validatedError.issues`
    -- and `validatedError` is not a property of a ZodError, so the body
    -- would throw a TypeError at runtime on every input
    { check := fun err => match err with
        | .zodError _ => true
        | _ => false
      handler := fun _ => .error .typeErrorUndefined },
    -- 8: ApiError (domain-raised, carries its own status/message/path)
    { check := fun err => match err with
        | .apiError _ _ _ _ => true
        | _ => false
      handler := fun err => match err with
        | .apiError s m p c =>
          .ok (ResponseSender.formatResponse s m
            (some (ErrorFormatter.apiErrorDetails p m c)))
        -- unreachable: the predicate admits only ApiError values
        | _ => .ok (ResponseSender.formatResponse 0 "" none) },
    -- 9: any other Error
    { check := fun err => err.isError
      handler := fun err =>
        .ok (ResponseSender.formatResponse 500 "Internal Server Error"
          (some (ErrorFormatter.formatGenericError err.nameProp err.msgString
            err.pathProp))) } ]

/-- The index of the first handler whose predicate matches, mirroring
`errorHandlers.find(handler => handler.check(err))`. -/
def findCheckIdx : List ErrorHandler → JSError → Option Nat
  | [], _ => none
  | h :: rest, err =>
    if h.check err then some 0 else (findCheckIdx rest err).map fun n => n + 1

namespace ErrorResolver

/-- The index of the handler `ErrorResolver.resolve` selects. -/
def resolveIndex (err : JSError) : Option Nat :=
  findCheckIdx errorHandlers err

/-- `ErrorResolver.resolve` (errorResolver.ts lines 21-40): the first
matching handler produces the envelope; with no match, the generic 500
fallback envelope is produced (its dev-only stack is not modelled). -/
def resolve (err : JSError) : Except JsFault ApiResponse :=
  match errorHandlers.find? fun h => h.check err with
  | some h => h.handler err
  | none =>
    .ok (ResponseSender.formatResponse 500 "An unexpected error occurred"
      (some (ErrorFormatter.formatOtherError err)))

end ErrorResolver

/-! ## Supporting lemmas about the JS object model -/

/-- Writing a key makes it readable: `(o.set k v)[k] = v`. -/
theorem Obj.get_set_self (o : Obj) (k : String) (v : Value) :
    (o.set k v).get k = some v := by
  induction o with
  | nil => simp [Obj.set, Obj.get]
  | cons kv rest ih =>
    by_cases h : kv.1 = k
    · simp [Obj.set, Obj.get, h]
    · simp [Obj.set, Obj.get, h, ih]

/-- The written pair is an entry of the object. -/
theorem Obj.mem_set (o : Obj) (k : String) (v : Value) :
    (k, v) ∈ o.set k v := by
  induction o with
  | nil => simp [Obj.set]
  | cons kv rest ih =>
    by_cases h : kv.1 = k
    · simp [Obj.set, h]
    · simp only [Obj.set, h, if_false]
      exact List.mem_cons_of_mem _ ih

/-- A matching entity agrees with every entry of the filter. -/
theorem Obj.matches_get {filter entity : Obj} {k : String} {v : Value}
    (hmatch : filter.matches entity = true) (hmem : (k, v) ∈ filter) :
    entity.get k = some v := by
  have := (List.all_eq_true.mp hmatch) (k, v) hmem
  simpa using this

/-! ## Claim theorems for the DAO layer -/

/-- C1 (counterexample).  The claim says that for an entity type declaring
a soft-delete field, `BaseDAO.delete` flips the soft-delete flag so the
record remains retrievable with include-deleted.  On the repository's code
this is false: with the soft-delete test configuration, after
`insert(testEntity1)` and `delete("test-id")` the record is gone even when
deleted records are requested, because `delete` calls `_hardDeleteOne`. -/
theorem delete_soft_claim_false :
    supportsSoftDelete softCfg = true
      ∧ BaseDAO.findById softCfg (BaseDAO.delete softCfg store1 "test-id" true).1
          "test-id" true = none := by
  decide

/-- C1 (amended).  `BaseDAO.delete` performs hard deletion for every
entity type, whether or not it declares a soft-delete field: it removes
the record from the store exactly as the explicit hard-delete path does,
and both permanently remove the record in every case (soft deletion is
available only through the separate `softDelete` method). -/
theorem delete_always_hard_deletes (cfg : DTOConfig) (st : Store) (id : String)
    (returnRecord : Bool) :
    (BaseDAO.delete cfg st id returnRecord).1 = st.erase (storeKey id)
      ∧ (BaseDAO.hardDelete cfg st id returnRecord).1 = st.erase (storeKey id)
      ∧ BaseDAO.delete cfg st id returnRecord
          = BaseDAO.hardDelete cfg st id returnRecord := by
  refine ⟨rfl, rfl, rfl⟩

/-- C2.  If the operation run inside `withTransaction` throws, the store
after `withTransaction` returns is the store from before the call: no
write performed inside the callback is committed. -/
theorem withTransaction_rollback {ε α : Type} (memory : Store)
    (operation : Store → Except ε (Store × α)) (e : ε)
    (h : operation memory = .error e) :
    (TestDAO.withTransaction memory operation).1 = memory := by
  simp [TestDAO.withTransaction, h]

/-- C2 (witness).  Running insert-then-raise inside a transaction on the
empty store leaves the store empty: the inserted record is absent
afterwards. -/
theorem withTransaction_rollback_witness :
    (TestDAO.withTransaction ([] : Store) insertThenRaise).1 = ([] : Store)
      ∧ Store.get (TestDAO.withTransaction ([] : Store) insertThenRaise).1
          (storeKey "test-id") = none := by
  have h := withTransaction_rollback ([] : Store) insertThenRaise
    "transaction failed" rfl
  exact ⟨h, by rw [h]; rfl⟩

/-- C3.  For an entity type whose soft-delete field is declared (a
non-empty field name), `findAll` / `findOne` / `findById` pass the filter
to the underlying query extended with `[isDeletedField] = false` when
include-deleted is not requested and pass it unchanged when it is; when
soft deletion is unsupported the filter is always passed unchanged.
Consequently every record returned by a default read has its soft-delete
flag set to `false`. -/
theorem find_excludes_soft_deleted (cfg : DTOConfig) (st : Store)
    (filter : Obj) (id : String) :
    (∀ f, cfg.isDeletedField = some f → f.isEmpty = false →
      (BaseDAO.findAll cfg st filter false
          = TestDAO.findAllRecords st (some (filter.set f (Value.vBool false)))
        ∧ BaseDAO.findAll cfg st filter true
          = TestDAO.findAllRecords st (some filter)
        ∧ BaseDAO.findOne cfg st filter false
          = TestDAO.findUnique st (filter.set f (Value.vBool false))
        ∧ BaseDAO.findOne cfg st filter true = TestDAO.findUnique st filter
        ∧ BaseDAO.findById cfg st id false
          = TestDAO.findUnique st (Obj.set [("id", Value.vStr id)] f (Value.vBool false))
        ∧ BaseDAO.findById cfg st id true
          = TestDAO.findUnique st [("id", Value.vStr id)]
        ∧ ∀ e ∈ BaseDAO.findAll cfg st filter false,
            e.get f = some (Value.vBool false)))
      ∧ (supportsSoftDelete cfg = false →
        (BaseDAO.findAll cfg st filter false
            = TestDAO.findAllRecords st (some filter)
          ∧ BaseDAO.findOne cfg st filter false = TestDAO.findUnique st filter
          ∧ BaseDAO.findById cfg st id false
            = TestDAO.findUnique st [("id", Value.vStr id)])) := by
  constructor
  · intro f hf hne
    have hsup : supportsSoftDelete cfg = true := by
      simp [supportsSoftDelete, hf, hne]
    refine ⟨?_, ?_, ?_, ?_, ?_, ?_, ?_⟩
    · simp [BaseDAO.findAll, BaseDAO.enhancedFilter, hsup, hf]
    · simp [BaseDAO.findAll, BaseDAO.enhancedFilter, hsup]
    · simp [BaseDAO.findOne, BaseDAO.enhancedFilter, hsup, hf]
    · simp [BaseDAO.findOne, BaseDAO.enhancedFilter, hsup]
    · simp [BaseDAO.findById, BaseDAO.enhancedFilter, hsup, hf]
    · simp [BaseDAO.findById, BaseDAO.enhancedFilter, hsup]
    · intro e he
      simp only [BaseDAO.findAll, BaseDAO.enhancedFilter, hsup, hf,
        if_true, Option.getD_some, Bool.false_eq_true, if_false,
        TestDAO.findAllRecords, List.mem_filter] at he
      exact Obj.matches_get he.2 (Obj.mem_set filter f (Value.vBool false))
  · intro hsup
    refine ⟨?_, ?_, ?_⟩
    · simp [BaseDAO.findAll, BaseDAO.enhancedFilter, hsup]
    · simp [BaseDAO.findOne, BaseDAO.enhancedFilter, hsup]
    · simp [BaseDAO.findById, BaseDAO.enhancedFilter, hsup]

/-- C3 (witness).  The soft-delete branch instantiated with the test
soft-delete configuration and the unsupported branch with the plain
configuration, on the one-record store. -/
theorem find_excludes_soft_deleted_witness :
    BaseDAO.findAll softCfg store1 [] false
        = TestDAO.findAllRecords store1 (some (Obj.set [] "isDeleted" (Value.vBool false)))
      ∧ BaseDAO.findAll plainCfg store1 [] false
        = TestDAO.findAllRecords store1 (some []) :=
  ⟨((find_excludes_soft_deleted softCfg store1 [] "x").1 "isDeleted" rfl
      (by decide)).1,
   ((find_excludes_soft_deleted plainCfg store1 [] "x").2 (by decide)).1⟩

/-- C4.  For an entity type supporting soft deletion, restoring an id with
no record in the store (never created, or hard-deleted) returns a null
result without throwing; for an entity type without a soft-delete field,
`restore` throws. -/
theorem restore_missing_returns_null (cfg : DTOConfig) (st : Store) (id : String) :
    (supportsSoftDelete cfg = true → st.get (storeKey id) = none →
        BaseDAO.restore cfg st id = .ok (st, none))
      ∧ (supportsSoftDelete cfg = false →
        BaseDAO.restore cfg st id
          = .error "Restore operation is available only for entities that support soft deletion") := by
  constructor
  · intro hsup hmissing
    simp [BaseDAO.restore, hsup, TestDAO.restoreOne, TestDAO.updateOne, hmissing]
  · intro hsup
    simp [BaseDAO.restore, hsup]

/-- C5.  `BaseService.findById` throws the `ApiError` with status code
404, path `"id"`, error code `RESOURCE_NOT_FOUND` and message
`"Entity not found for ID: <id>"` exactly when the DAO returns no record
or the returned record's soft-delete flag is set; otherwise it returns
the entity passed through the DTO output formatter. -/
theorem service_findById_not_found (cfg : DTOConfig) (st : Store) (id : String) :
    (BaseService.findById cfg st id
        = .error { statusCode := 404, message := "Entity not found for ID: " ++ id,
                   path := "id", errorCode := "RESOURCE_NOT_FOUND" }
      ↔ (BaseDAO.findById cfg st id false = none
          ∨ ∃ e, BaseDAO.findById cfg st id false = some e
              ∧ jsTruthy (e.get "isDeleted") = true))
      ∧ ∀ e, BaseDAO.findById cfg st id false = some e →
        jsTruthy (e.get "isDeleted") = false →
        BaseService.findById cfg st id = .ok (BaseDTO.toJSON e) := by
  constructor
  · cases hfind : BaseDAO.findById cfg st id false with
    | none =>
      simp [BaseService.findById, hfind, BaseService.notFoundError, errorCode.notFound]
    | some e =>
      cases hdel : jsTruthy (e.get "isDeleted") with
      | true =>
        simp [BaseService.findById, hfind, hdel, BaseService.notFoundError,
          errorCode.notFound]
      | false =>
        simp [BaseService.findById, hfind, hdel]
  · intro e hfind hdel
    simp [BaseService.findById, hfind, hdel]

/-- C5 (witness).  A missing id on the empty store produces the 404
`ApiError`; the live `test-id` record is returned through `toJSON`. -/
theorem service_findById_not_found_witness :
    BaseService.findById softCfg ([] : Store) "missing-id"
        = .error { statusCode := 404,
                   message := "Entity not found for ID: " ++ "missing-id",
                   path := "id", errorCode := "RESOURCE_NOT_FOUND" }
      ∧ BaseService.findById softCfg store1 "test-id"
        = .ok (BaseDTO.toJSON testEntity1) :=
  ⟨(service_findById_not_found softCfg ([] : Store) "missing-id").1.mpr
      (Or.inl (by decide)),
   (service_findById_not_found softCfg store1 "test-id").2 testEntity1
      (by decide) (by decide)⟩

/-- C4 (witness).  Restoring the hard-deleted `test-id` record returns
`null`, and restoring on the configuration without a soft-delete field
throws. -/
theorem restore_missing_returns_null_witness :
    BaseDAO.restore softCfg (BaseDAO.delete softCfg store1 "test-id" true).1 "test-id"
        = .ok ((BaseDAO.delete softCfg store1 "test-id" true).1, none)
      ∧ BaseDAO.restore plainCfg store1 "test-id"
        = .error "Restore operation is available only for entities that support soft deletion" :=
  ⟨(restore_missing_returns_null softCfg
      (BaseDAO.delete softCfg store1 "test-id" true).1 "test-id").1
      (by decide) (by decide),
   (restore_missing_returns_null plainCfg store1 "test-id").2 (by decide)⟩

/-- C7.  Evaluating the code at the claim's failing input: for the request
`?limit=10&skip=5`, the options object forwarded to the service carries
`skip = 10` — the JSON-decoded value of the `limit` query parameter — not
the JSON-decoded value `5` of the `skip` parameter as the claim (and the
handler's own doc comment) state.  Moreover, a request carrying `skip`
without `limit` throws a `SyntaxError`, because the handler decodes
`String(req.query["limit"]) = "undefined"` for the skip slot. -/
theorem getAll_skip_decodes_limit_param :
    BaseController.getAllQuery parseJsonLite JsonLite.emptyObj JsonLite.truthy
        { limit := some "10", skip := some "5" }
      = .ok (JsonLite.emptyObj, [("limit", JsonLite.num 10), ("skip", JsonLite.num 10)])
    ∧ BaseController.getAllQuery parseJsonLite JsonLite.emptyObj JsonLite.truthy
        { skip := some "5" }
      = .error "Unexpected token in JSON" := by
  constructor
  · decide
  · decide

/-! ## Claim theorems for the DTO layer -/

/-- The validated output of a Zod object parse only carries keys of the
shape: a key no shape field bears reads as `undefined`. -/
theorem zodParseFields_get_none (shape : Schema) (input : Obj) (k : String)
    (hk : ∀ f ∈ shape, f.name ≠ k) :
    Obj.get (zodParseFields shape input).2 k = none := by
  induction shape with
  | nil => simp [zodParseFields, Obj.get]
  | cons f rest ih =>
    have hf : f.name ≠ k := hk f (List.mem_cons_self f rest)
    have hrest : ∀ g ∈ rest, g.name ≠ k := fun g hg => hk g (List.mem_cons_of_mem f hg)
    simp only [zodParseFields]
    cases hin : Obj.get input f.name with
    | none => cases f.optional <;> simp [ih hrest]
    | some v => cases hacc : f.type.accepts v <;> simp [hacc, Obj.get, hf, ih hrest]

/-- A successful parse returns exactly the validated output object. -/
theorem zodParse_ok_out (shape : Schema) (input out : Obj)
    (h : zodParse shape input = .ok out) :
    out = (zodParseFields shape input).2 := by
  unfold zodParse at h
  rcases hr : zodParseFields shape input with ⟨issues, o⟩
  rw [hr] at h
  cases issues with
  | nil => cases h; rfl
  | cons a as => cases h

/-- Omitted names name no field of the omitted shape. -/
theorem omit_name_ne (shape : Schema) (names : List String) (k : String)
    (hk : k ∈ names) : ∀ f ∈ shape.omit names, f.name ≠ k := by
  intro f hf heq
  have hmem := List.mem_filter.mp hf
  have hcont : names.contains f.name = false := by simpa using hmem.2
  rw [heq] at hcont
  simp [List.elem_eq_mem, hk] at hcont

/-- C8.  For every create-input accepted by the create schema (the base
schema with the auto-managed fields removed), `toCreateDTO` returns an
object carrying none of the configured identifier, created-at, updated-at
or soft-delete keys. -/
theorem toCreateDTO_strips_auto_fields (cfg : DTOSchemaConfig) (input out : Obj)
    (h : BaseDTO.toCreateDTO cfg input = .ok out) :
    (cfg.commonFields.idField.isEmpty = false →
        Obj.get out cfg.commonFields.idField = none)
      ∧ (∀ f, cfg.commonFields.createdAtField = some f → f.isEmpty = false →
        Obj.get out f = none)
      ∧ (∀ f, cfg.commonFields.updatedAtField = some f → f.isEmpty = false →
        Obj.get out f = none)
      ∧ (∀ f, cfg.commonFields.isDeletedField = some f → f.isEmpty = false →
        Obj.get out f = none) := by
  have hout : out = (zodParseFields (BaseDTO.createSchema cfg) input).2 :=
    zodParse_ok_out _ _ _ h
  subst hout
  refine ⟨?_, ?_, ?_, ?_⟩
  · intro hne
    refine zodParseFields_get_none _ _ _ (omit_name_ne _ _ _ ?_)
    simp [truthyName, hne]
  · intro f hf hne
    refine zodParseFields_get_none _ _ _ (omit_name_ne _ _ _ ?_)
    simp [truthyName, hf, hne]
  · intro f hf hne
    refine zodParseFields_get_none _ _ _ (omit_name_ne _ _ _ ?_)
    simp [truthyName, hf, hne]
  · intro f hf hne
    refine zodParseFields_get_none _ _ _ (omit_name_ne _ _ _ ?_)
    simp [truthyName, hf, hne]

/-- C8 (witness).  The spec's create body validated through the user DTO:
the output carries neither `id`, `createdAt`, `updatedAt` nor `isDeleted`. -/
theorem toCreateDTO_strips_auto_fields_witness :
    Obj.get createBody "id" = none ∧ Obj.get createBody "createdAt" = none
      ∧ Obj.get createBody "updatedAt" = none
      ∧ Obj.get createBody "isDeleted" = none :=
  let h := toCreateDTO_strips_auto_fields userDTOCfg createBody createBody (by decide)
  ⟨h.1 (by decide), h.2.1 "createdAt" rfl (by decide),
   h.2.2.1 "updatedAt" rfl (by decide), h.2.2.2 "isDeleted" rfl (by decide)⟩

/-- C9.  `toUpdateDTO` rejects the empty object with the 400 bad-request
`ApiError` for every configuration — in particular for update schemas
that would accept `{}` — so the rejection happens before any schema
validation; and for every non-empty input, when a (truthy) updated-at
field is configured, the object validated against the update schema
carries the current timestamp under that field. -/
theorem toUpdateDTO_empty_rejected_timestamp_injected (now : Value)
    (cfg : DTOSchemaConfig) (input : Obj) :
    BaseDTO.toUpdateDTO now cfg []
        = .error (.api { statusCode := 400, message := "Must update at least one field",
                         path := "body", errorCode := "BAD_REQUEST" })
      ∧ (input ≠ [] →
        BaseDTO.toUpdateDTO now cfg input
          = (zodParse (BaseDTO.updateSchema cfg)
              (BaseDTO.updateInput now cfg input)).mapError BaseDTO.DtoError.zod)
      ∧ (∀ f, cfg.commonFields.updatedAtField = some f → f.isEmpty = false →
        Obj.get (BaseDTO.updateInput now cfg input) f = some now) := by
  refine ⟨?_, ?_, ?_⟩
  · simp [BaseDTO.toUpdateDTO, errorCode.badRequest]
  · intro hne
    have hlen : input.length ≠ 0 := by
      simpa using fun hzero => hne (List.length_eq_zero.mp hzero)
    simp [BaseDTO.toUpdateDTO, hlen]
  · intro f hf hne
    simp [BaseDTO.updateInput, hf, hne, Obj.get_set_self]

/-- C9 (witness).  The empty update body is rejected with the bad-request
`ApiError`, and the email-only update body is validated with the current
timestamp injected under `updatedAt`. -/
theorem toUpdateDTO_empty_rejected_timestamp_injected_witness :
    BaseDTO.toUpdateDTO (Value.vDate 99) userDTOCfg []
        = .error (.api { statusCode := 400, message := "Must update at least one field",
                         path := "body", errorCode := "BAD_REQUEST" })
      ∧ Obj.get (BaseDTO.updateInput (Value.vDate 99) userDTOCfg
          [("email", Value.vStr "new@email.com")]) "updatedAt"
        = some (Value.vDate 99) :=
  let h := toUpdateDTO_empty_rejected_timestamp_injected (Value.vDate 99) userDTOCfg
    [("email", Value.vStr "new@email.com")]
  ⟨h.1, h.2.2 "updatedAt" rfl (by decide)⟩

/-! ## Claim theorems for the error pipeline -/

/-- C6.  The second `ZodError` entry of the handler table (index 7) is
dead code: the index-5 entry's predicate matches every value the index-7
predicate matches, so the resolver's first-match dispatch never selects
entry 7, for any thrown value. -/
theorem second_zodError_entry_dead (err : JSError) :
    ((errorHandlers.get ⟨7, by decide⟩).check err = true →
        (errorHandlers.get ⟨5, by decide⟩).check err = true)
      ∧ ErrorResolver.resolveIndex err ≠ some 7 := by
  constructor
  · exact fun h => h
  · cases err <;>
      first
      | (simp [ErrorResolver.resolveIndex, findCheckIdx, errorHandlers];
         split_ifs <;> simp)
      | simp [ErrorResolver.resolveIndex, findCheckIdx, errorHandlers]

/-- C6 (witness).  A concrete `ZodError` is dispatched to entry 5, the
live `ZodError` handler, never to the dead entry 7. -/
theorem second_zodError_entry_dead_witness :
    ErrorResolver.resolveIndex (JSError.zodError []) ≠ some 7
      ∧ ErrorResolver.resolveIndex (JSError.zodError []) = some 5 :=
  ⟨(second_zodError_entry_dead (JSError.zodError [])).2, by decide⟩

/-- C10.  A thrown `PrismaClientKnownRequestError` whose code is none of
P2002, P2003, P2025 falls through to the generic database-error entry,
which surfaces it to the client as a 404 "Not Found" envelope carrying
the single detail `{ path: "database", message: "A database error
occurred", code: DATABASE_ERROR }` — not a 5xx. -/
theorem generic_prisma_error_maps_to_404 (code : String)
    (target modelName fieldName cause : Option String)
    (h1 : code ≠ "P2002") (h2 : code ≠ "P2003") (h3 : code ≠ "P2025") :
    ErrorResolver.resolve (.prismaKnown code target modelName fieldName cause)
      = .ok { success := false, statusCode := 404, message := "Not Found",
              errors := some [{ path := .str "database",
                                message := some "A database error occurred",
                                code := "DATABASE_ERROR" }] } := by
  have e1 : (code == "P2002") = false := by simpa using h1
  have e2 : (code == "P2003") = false := by simpa using h2
  have e3 : (code == "P2025") = false := by simpa using h3
  simp [ErrorResolver.resolve, errorHandlers, List.find?, e1, e2, e3,
    ErrorFormatter.databaseError, ResponseSender.formatResponse,
    errorCode.database]

/-- C10 (witness).  The pipeline's envelope for a `P2000` database
error. -/
theorem generic_prisma_error_maps_to_404_witness :
    ErrorResolver.resolve (.prismaKnown "P2000" none none none none)
      = .ok { success := false, statusCode := 404, message := "Not Found",
              errors := some [{ path := .str "database",
                                message := some "A database error occurred",
                                code := "DATABASE_ERROR" }] } :=
  generic_prisma_error_maps_to_404 "P2000" none none none none
    (by decide) (by decide) (by decide)
